import Mathlib

/-!
Verification of the AMPL `featurization.py` / `compare_models.py` pair.

The Python source is shallowly embedded: pandas DataFrames become Lean lists of
row structures, boolean-mask row selection becomes `maskFilter`, and every call
into an external system (RDKit, Mordred, MOE, deepchem, the model tracker) is
abstracted as an explicit oracle parameter whose contract follows the callee's
documented behaviour.  Machine floats that only flow through the code unchanged
are modelled as `Int`.
-/

namespace AMPL

/-- Select the rows of `df` whose aligned entry in `mask` is `true`.  This is the
pandas idiom `df[mask]` for a boolean Series `mask` aligned with the rows. -/
def maskFilter {ρ : Type} (df : List ρ) (mask : List Bool) : List ρ :=
  (df.zip mask).filterMap (fun p => if p.2 then some p.1 else none)

theorem maskFilter_map {ρ : Type} (p : ρ → Bool) (df : List ρ) :
    maskFilter df (df.map p) = df.filter p := by
  induction df with
  | nil => rfl
  | cons a as ih =>
      simp only [maskFilter, List.map_cons, List.zip_cons_cons, List.filterMap_cons] at *
      cases h : p a <;> simp [h, ih, List.filter_cons]

/-- Filtering a mapped list by a mask computed from the same source list selects
exactly the images of the rows the mask keeps. -/
theorem maskFilter_map_map {α β : Type} (f : α → β) (q : α → Bool) (l : List α) :
    maskFilter (l.map f) (l.map q) = (l.filter q).map f := by
  induction l with
  | nil => rfl
  | cons a as ih =>
      simp only [maskFilter, List.map_cons, List.zip_cons_cons, List.filterMap_cons] at *
      cases h : q a <;> simp [h, ih, List.filter_cons]

theorem length_filterMap_eq_countP {α β : Type} (g : α → Option β) (l : List α) :
    (l.filterMap g).length = l.countP (fun a => (g a).isSome) := by
  induction l with
  | nil => rfl
  | cons a as ih =>
      rw [List.filterMap_cons, List.countP_cons]
      cases h : g a <;> simp [h, ih]

/- ************************************************************************************
`remove_duplicate_smiles` (featurization.py lines 77-95).
`dset_df.duplicated(subset=smiles_col, keep=False)` marks every row whose SMILES
value occurs in more than one row; the function keeps the complement `dset_df[~remove]`.
************************************************************************************ -/

/-- Boolean mask returned by `dset_df.duplicated(subset=smiles_col, keep=False)`:
`true` for each row whose SMILES value occurs more than once in `df`. -/
def duplicatedKeepFalse {ρ : Type} (smilesOf : ρ → String) (df : List ρ) : List Bool :=
  df.map (fun r => decide (1 < df.countP (fun s => decide (smilesOf s = smilesOf r))))

/-- Embedding of `remove_duplicate_smiles`: drop every row whose SMILES string is
duplicated anywhere in the table (the logging calls are side-effect free and omitted). -/
def remove_duplicate_smiles {ρ : Type} (smilesOf : ρ → String) (df : List ρ) : List ρ :=
  maskFilter df ((duplicatedKeepFalse smilesOf df).map (fun b => !b))

theorem remove_duplicate_smiles_eq_filter {ρ : Type} (smilesOf : ρ → String) (df : List ρ) :
    remove_duplicate_smiles smilesOf df
      = df.filter (fun r => decide (df.countP (fun s => decide (smilesOf s = smilesOf r)) = 1)) := by
  unfold remove_duplicate_smiles duplicatedKeepFalse
  rw [List.map_map, maskFilter_map]
  · apply List.filter_congr
    intro r hr
    have hpos : 0 < df.countP (fun s => decide (smilesOf s = smilesOf r)) := by
      rw [List.countP_pos_iff]
      exact ⟨r, hr, by simp⟩
    simp only [Function.comp]
    by_cases h1 : df.countP (fun s => decide (smilesOf s = smilesOf r)) = 1
    · simp [h1]
    · have : 1 < df.countP (fun s => decide (smilesOf s = smilesOf r)) := by omega
      simp [h1, this]

/-- C2: `remove_duplicate_smiles` keeps exactly the rows whose SMILES value occurs
exactly once in the input table (all participants of a duplicate group are removed),
in their original order, and consequently no SMILES value occurs twice in the result. -/
theorem remove_duplicate_smiles_spec {ρ : Type} (smilesOf : ρ → String) (df : List ρ) :
    remove_duplicate_smiles smilesOf df
      = df.filter (fun r => decide (df.countP (fun s => decide (smilesOf s = smilesOf r)) = 1))
    ∧ (remove_duplicate_smiles smilesOf df).Sublist df
    ∧ ∀ v : String,
        (remove_duplicate_smiles smilesOf df).countP (fun r => decide (smilesOf r = v)) ≤ 1 := by
  refine ⟨remove_duplicate_smiles_eq_filter smilesOf df, ?_, ?_⟩
  · rw [remove_duplicate_smiles_eq_filter]
    exact List.filter_sublist df
  · intro v
    rw [remove_duplicate_smiles_eq_filter, List.countP_filter]
    by_cases hv : df.countP (fun s => decide (smilesOf s = v)) = 1
    · calc df.countP (fun a => decide (smilesOf a = v)
                && decide (df.countP (fun s => decide (smilesOf s = smilesOf a)) = 1))
          ≤ df.countP (fun a => decide (smilesOf a = v)) := by
            apply List.countP_mono_left
            intro a _ h
            exact (Bool.and_elim_left h)
        _ ≤ 1 := le_of_eq hv
    · have : df.countP (fun a => decide (smilesOf a = v)
                && decide (df.countP (fun s => decide (smilesOf s = smilesOf a)) = 1)) = 0 := by
        apply List.countP_eq_zero.mpr
        intro a _ hcontra
        have h1 : smilesOf a = v := by
          have := Bool.and_elim_left hcontra
          simpa using this
        have h2 : df.countP (fun s => decide (smilesOf s = smilesOf a)) = 1 := by
          have := Bool.and_elim_right hcontra
          simpa using this
        rw [h1] at h2
        exact hv h2
      omega

/- ************************************************************************************
`create_featurization` (featurization.py lines 53-74).
Note the Python membership tests: `params.featurizer in ('ecfp', 'graphconv', 'molvae')`
is tuple membership, but `params.featurizer in ('descriptors')` and
`params.featurizer in ('computed_descriptors')` test membership in a STRING — i.e.
substring containment — because a one-element tuple needs a trailing comma.
************************************************************************************ -/

inductive FeatClass where
  | dynamicFeaturization
  | descriptorFeaturization
  | computedDescriptorFeaturization
deriving DecidableEq, Repr

/-- Python `x in s` for a string `s`: substring containment. -/
def pyInString (x s : String) : Bool := decide (x.data <:+: s.data)

/-- Embedding of `create_featurization`, dispatching on `params.featurizer` exactly
as the Python conditionals do (including the string-membership branches). -/
def create_featurization (featurizer : String) : Except String FeatClass :=
  if featurizer = "ecfp" ∨ featurizer = "graphconv" ∨ featurizer = "molvae" then
    Except.ok FeatClass.dynamicFeaturization
  else if pyInString featurizer "descriptors" then
    Except.ok FeatClass.descriptorFeaturization
  else if pyInString featurizer "computed_descriptors" then
    Except.ok FeatClass.computedDescriptorFeaturization
  else
    Except.error ("Unknown featurization type " ++ featurizer)

/-- C3: the function's own docstring says a ValueError is raised whenever
`params.featurizer` is not one of the five listed values, but for the value "desc"
(not among them) the code instead returns a DescriptorFeaturization object, because
`'desc' in ('descriptors')` is a substring test on a string, not tuple membership.
The five documented values themselves do dispatch as documented. -/
theorem create_featurization_substring_bug :
    create_featurization "desc" = Except.ok FeatClass.descriptorFeaturization
    ∧ "desc" ∉ (["ecfp", "graphconv", "molvae", "computed_descriptors", "descriptors"] :
        List String)
    ∧ create_featurization "ecfp" = Except.ok FeatClass.dynamicFeaturization
    ∧ create_featurization "descriptors" = Except.ok FeatClass.descriptorFeaturization
    ∧ create_featurization "computed_descriptors"
        = Except.ok FeatClass.computedDescriptorFeaturization := by
  refine ⟨rfl, by decide, rfl, rfl, rfl⟩

/- ************************************************************************************
`get_2d_mols` / `get_3d_mols` (featurization.py lines 130-183).
RDKit calls are oracles: `molFromSmiles` returns `none` when RDKit rejects the
SMILES string (`Chem.MolFromSmiles` returning None, or raising TypeError in the
3D variant), `addHs` is `Chem.AddHs`, and `embedMolecule` returns `none` when
`AllChem.EmbedMolecule` raises RuntimeError (the code then gives up on the mol).
************************************************************************************ -/

/-- Embedding of `get_2d_mols`: parse every SMILES, record validity flags, and keep
the Mol objects of the valid entries (`np.array(mols)[is_valid]`). -/
def get_2d_mols {μ : Type} (molFromSmiles : String → Option μ) (smiles_strs : List String) :
    List μ × List Bool :=
  let mols := smiles_strs.map molFromSmiles
  (mols.filterMap id, mols.map Option.isSome)

/-- Embedding of `get_3d_mols`: parse, add hydrogens to the successfully parsed mols,
attempt 3D embedding (failure resets the entry to None), then keep valid entries. -/
def get_3d_mols {μ : Type} (molFromSmiles : String → Option μ) (addHs : μ → μ)
    (embedMolecule : μ → Option μ) (smiles_strs : List String) :
    List μ × List Bool :=
  let mols1 := smiles_strs.map molFromSmiles
  let mols2 := mols1.map (Option.map addHs)
  let mols3 := mols2.map (fun m => m.bind embedMolecule)
  (mols3.filterMap id, mols3.map Option.isSome)

theorem filterMap_id_length {μ : Type} (l : List (Option μ)) :
    (l.filterMap id).length = (l.map Option.isSome).count true := by
  induction l with
  | nil => rfl
  | cons a as ih =>
      cases a <;> simp [List.filterMap_cons, List.count_cons, ih]

/-- C9: both `get_2d_mols` and `get_3d_mols` return a validity flag for every input
SMILES string, and exactly one Mol object per `true` flag; the Mol list is the
per-input conversion pipeline restricted to its successes, in input order. -/
theorem get_mols_shape {μ : Type} (molFromSmiles : String → Option μ) (addHs : μ → μ)
    (embedMolecule : μ → Option μ) (smiles_strs : List String) :
    (get_2d_mols molFromSmiles smiles_strs).2.length = smiles_strs.length
    ∧ (get_2d_mols molFromSmiles smiles_strs).1.length
        = (get_2d_mols molFromSmiles smiles_strs).2.count true
    ∧ (get_2d_mols molFromSmiles smiles_strs).1 = smiles_strs.filterMap molFromSmiles
    ∧ (get_3d_mols molFromSmiles addHs embedMolecule smiles_strs).2.length
        = smiles_strs.length
    ∧ (get_3d_mols molFromSmiles addHs embedMolecule smiles_strs).1.length
        = (get_3d_mols molFromSmiles addHs embedMolecule smiles_strs).2.count true
    ∧ (get_3d_mols molFromSmiles addHs embedMolecule smiles_strs).1
        = smiles_strs.filterMap
            (fun s => ((molFromSmiles s).map addHs).bind embedMolecule) := by
  refine ⟨by simp [get_2d_mols], filterMap_id_length _, ?_, by simp [get_3d_mols],
          filterMap_id_length _, ?_⟩
  · simp [get_2d_mols, List.filterMap_map]
  · simp [get_3d_mols, List.map_map, List.filterMap_map]
    rfl

/- ************************************************************************************
`get_summary_metadata_table` (compare_models.py lines 1016-1032), RF branch.
Only the hyperparameter entries of the `minfo` dict are modelled; the remaining
entries are formatted pass-throughs of tracker metadata.
************************************************************************************ -/

structure RFParams where
  rf_estimators : Int
  rf_max_features : Int
  rf_max_depth : Int
deriving DecidableEq, Repr

structure RFSummaryEntries where
  maxDepth : Int
  maxFeatures : Int
  rfEstimators : Int
deriving DecidableEq, Repr

/-- Hyperparameter entries of the `minfo` dict built in the `model_type == 'RF'`
branch of `get_summary_metadata_table`: the Python source fills both 'Max Depth'
and 'Max Features' from `rf_params['rf_max_depth']`. -/
def rf_summary_entries (rf_params : RFParams) : RFSummaryEntries :=
  { maxDepth := rf_params.rf_max_depth
    maxFeatures := rf_params.rf_max_depth
    rfEstimators := rf_params.rf_estimators }

/-- C10: for every random-forest model, the 'Max Features' entry of the summary table
equals the model's rf_max_depth parameter (the very value shown as 'Max Depth'), and
whenever rf_max_features differs from rf_max_depth the entry does not equal
rf_max_features. -/
theorem get_summary_metadata_table_max_features (rf : RFParams) :
    (rf_summary_entries rf).maxFeatures = rf.rf_max_depth
    ∧ (rf_summary_entries rf).maxFeatures = (rf_summary_entries rf).maxDepth
    ∧ (rf.rf_max_features ≠ rf.rf_max_depth →
        (rf_summary_entries rf).maxFeatures ≠ rf.rf_max_features) := by
  refine ⟨rfl, rfl, ?_⟩
  intro hne hcontra
  exact hne (by simpa [rf_summary_entries] using hcontra.symm)

/-- Witness for C10 at the concrete parameters
rf_estimators 100, rf_max_features 32, rf_max_depth 5. -/
theorem get_summary_metadata_table_max_features_witness :
    (rf_summary_entries ⟨100, 32, 5⟩).maxFeatures = 5
    ∧ (rf_summary_entries ⟨100, 32, 5⟩).maxFeatures ≠ 32 := by
  refine ⟨(get_summary_metadata_table_max_features ⟨100, 32, 5⟩).1, ?_⟩
  exact (get_summary_metadata_table_max_features ⟨100, 32, 5⟩).2.2 (by decide)

/- ************************************************************************************
`compute_all_moe_descriptors` (featurization.py lines 304-369).
The MOE invocation is `os.system(shellcmd)` where
`shellcmd = '%s >& %s/moe_err.txt' % (command, tmpdir)`; the return code is only
logged, never branched on.  Success is detected solely by the existence of the
output file `<tmpdir>/smiles4moe.txt`: if it is absent the function returns None,
otherwise the file is parsed with `pd.read_csv` and the `cmpd_id` /
`original_smiles` columns are renamed to the dataset's ID / SMILES column names.
The filesystem and subprocess are an explicit environment `MoeEnv`.
************************************************************************************ -/

/-- A parsed CSV table: column names plus rows of cell strings. -/
structure PTable where
  cols : List String
  rows : List (List String)
deriving DecidableEq, Repr

/-- External world seen by `compute_all_moe_descriptors`: `systemRetcode` is
`os.system`, `pathIsThere` is `os.path.exists`, `readCsv` is `pd.read_csv`. -/
structure MoeEnv where
  systemRetcode : String → Int
  pathIsThere : String → Bool
  readCsv : String → PTable

/-- Column renaming applied to the MOE output table:
`result_df.rename(columns={'cmpd_id': params.id_col, 'original_smiles': params.smiles_col})`. -/
def moeRename (id_col smiles_col : String) (c : String) : String :=
  if c = "cmpd_id" then id_col else if c = "original_smiles" then smiles_col else c

/-- Embedding of `compute_all_moe_descriptors`: run the MOE batch command through the
shell, then return None when the expected output file is missing, otherwise the
parsed output with its ID and SMILES columns renamed. -/
def compute_all_moe_descriptors (env : MoeEnv) (moe_command tmpdir id_col smiles_col :
    String) : Option PTable :=
  let shellcmd := moe_command ++ " >& " ++ tmpdir ++ "/moe_err.txt"
  let _retcode := env.systemRetcode shellcmd
  let output_file := tmpdir ++ "/smiles4moe.txt"
  if env.pathIsThere output_file then
    let result := env.readCsv output_file
    some ⟨result.cols.map (moeRename id_col smiles_col), result.rows⟩
  else
    none

/-- C5: `compute_all_moe_descriptors` returns None exactly when the expected output
file of the shell-invoked MOE program does not exist afterwards, and otherwise
returns the parsed output table with its compound-ID and SMILES columns renamed to
the dataset's column names. -/
theorem compute_all_moe_descriptors_spec (env : MoeEnv)
    (moe_command tmpdir id_col smiles_col : String) :
    (compute_all_moe_descriptors env moe_command tmpdir id_col smiles_col = none
      ↔ env.pathIsThere (tmpdir ++ "/smiles4moe.txt") = false)
    ∧ (env.pathIsThere (tmpdir ++ "/smiles4moe.txt") = true →
        compute_all_moe_descriptors env moe_command tmpdir id_col smiles_col
          = some ⟨(env.readCsv (tmpdir ++ "/smiles4moe.txt")).cols.map
                    (moeRename id_col smiles_col),
                  (env.readCsv (tmpdir ++ "/smiles4moe.txt")).rows⟩) := by
  unfold compute_all_moe_descriptors
  cases h : env.pathIsThere (tmpdir ++ "/smiles4moe.txt") <;> simp [h]

/-- Witness for C5: a concrete environment in which the output file exists and the
parsed table has columns cmpd_id, original_smiles, vol; the result renames the
first two columns to compound_id and rdkit_smiles. -/
theorem compute_all_moe_descriptors_spec_witness :
    (MoeEnv.mk (fun _ => 0) (fun _ => true)
        (fun _ => ⟨["cmpd_id", "original_smiles", "vol"], [["c1", "s1", "3"]]⟩)).pathIsThere
      ("/tmp/work" ++ "/smiles4moe.txt") = true
    ∧ compute_all_moe_descriptors
        (MoeEnv.mk (fun _ => 0) (fun _ => true)
          (fun _ => ⟨["cmpd_id", "original_smiles", "vol"], [["c1", "s1", "3"]]⟩))
        "moebatch -mpu 3 -exec" "/tmp/work" "compound_id" "rdkit_smiles"
      = some ⟨["compound_id", "rdkit_smiles", "vol"], [["c1", "s1", "3"]]⟩ := by
  refine ⟨rfl, ?_⟩
  exact Eq.trans
    ((compute_all_moe_descriptors_spec
        (MoeEnv.mk (fun _ => 0) (fun _ => true)
          (fun _ => ⟨["cmpd_id", "original_smiles", "vol"], [["c1", "s1", "3"]]⟩))
        "moebatch -mpu 3 -exec" "/tmp/work" "compound_id" "rdkit_smiles").2 rfl)
    (by rfl)

/- ************************************************************************************
`DynamicFeaturization.featurize_data` (featurization.py lines 571-623).
External contracts used as oracles:
- `featurize_smiles_df` (deepchem) featurizes each row's SMILES string, returning
  the feature rows of the successes plus a per-row validity flag; modelled by a
  per-SMILES oracle `featurizeSmiles`.
- `dl.convert_df_to_numpy` returns response values and weights with one row per
  input row; modelled by a per-row oracle `valswOf`.
The final `assert len(features) == len(ids) == len(vals) == len(w)` is embedded as
a guard returning `none` when it would fail.
************************************************************************************ -/

/-- A row of the input dataset: compound ID, SMILES string, response values. -/
structure DRow where
  cid : String
  smiles : String
  responses : List Int
deriving DecidableEq, Repr

/-- Embedding of `DynamicFeaturization.featurize_data`.  Returns
`(features, ids, vals, attr, w)`, or `none` exactly when the closing assertion
would fail. -/
def dyn_featurize_data {φ : Type} (featurizeSmiles : String → Option φ)
    (valswOf : DRow → List Int × List Int) (ncols : Nat) (contains_responses : Bool)
    (dset : List DRow) :
    Option (List φ × List String × List (List Int) × List String × List (List Int)) :=
  let is_valid := dset.map (fun r => (featurizeSmiles r.smiles).isSome)
  let features := dset.filterMap (fun r => featurizeSmiles r.smiles)
  let nrows := is_valid.count true
  let vals := if contains_responses
    then maskFilter (dset.map (fun r => (valswOf r).1)) is_valid
    else List.replicate nrows (List.replicate ncols 0)
  let w := if contains_responses
    then maskFilter (dset.map (fun r => (valswOf r).2)) is_valid
    else List.replicate nrows (List.replicate ncols 1)
  let attr := maskFilter (dset.map (fun r => r.smiles)) is_valid
  let ids := maskFilter (dset.map (fun r => r.cid)) is_valid
  if features.length = ids.length ∧ ids.length = vals.length ∧ vals.length = w.length then
    some (features, ids, vals, attr, w)
  else
    none

theorem count_true_map_eq_countP {α : Type} (p : α → Bool) (l : List α) :
    (l.map p).count true = l.countP p := by
  induction l with
  | nil => rfl
  | cons a as ih =>
      cases h : p a <;> simp [List.count_cons, h, ih, List.countP_cons]

/-- C8: `DynamicFeaturization.featurize_data` always passes its final assertion and
returns a 5-tuple whose features, ids, vals and w components all have length equal
to the number of input rows whose SMILES string was successfully featurized. -/
theorem dyn_featurize_data_spec {φ : Type} (featurizeSmiles : String → Option φ)
    (valswOf : DRow → List Int × List Int) (ncols : Nat) (contains_responses : Bool)
    (dset : List DRow) :
    ∃ features ids vals attr w,
      dyn_featurize_data featurizeSmiles valswOf ncols contains_responses dset
        = some (features, ids, vals, attr, w)
      ∧ features.length = dset.countP (fun r => (featurizeSmiles r.smiles).isSome)
      ∧ ids.length = features.length
      ∧ vals.length = features.length
      ∧ w.length = features.length := by
  have hvalid : (dset.map (fun r => (featurizeSmiles r.smiles).isSome)).count true
      = dset.countP (fun r => (featurizeSmiles r.smiles).isSome) :=
    count_true_map_eq_countP _ _
  have hfeat : (dset.filterMap (fun r => featurizeSmiles r.smiles)).length
      = dset.countP (fun r => (featurizeSmiles r.smiles).isSome) :=
    length_filterMap_eq_countP _ _
  have hids : (maskFilter (dset.map (fun r => r.cid))
      (dset.map (fun r => (featurizeSmiles r.smiles).isSome))).length
      = dset.countP (fun r => (featurizeSmiles r.smiles).isSome) := by
    rw [maskFilter_map_map, List.length_map, ← List.countP_eq_length_filter]
  have hv1 : (maskFilter (dset.map (fun r => (valswOf r).1))
      (dset.map (fun r => (featurizeSmiles r.smiles).isSome))).length
      = dset.countP (fun r => (featurizeSmiles r.smiles).isSome) := by
    rw [maskFilter_map_map, List.length_map, ← List.countP_eq_length_filter]
  have hv2 : (maskFilter (dset.map (fun r => (valswOf r).2))
      (dset.map (fun r => (featurizeSmiles r.smiles).isSome))).length
      = dset.countP (fun r => (featurizeSmiles r.smiles).isSome) := by
    rw [maskFilter_map_map, List.length_map, ← List.countP_eq_length_filter]
  have hvals : (if contains_responses
        then maskFilter (dset.map (fun r => (valswOf r).1))
          (dset.map (fun r => (featurizeSmiles r.smiles).isSome))
        else List.replicate
          ((dset.map (fun r => (featurizeSmiles r.smiles).isSome)).count true)
          (List.replicate ncols 0)).length
      = dset.countP (fun r => (featurizeSmiles r.smiles).isSome) := by
    cases contains_responses
    · simpa using hvalid
    · simpa using hv1
  have hw : (if contains_responses
        then maskFilter (dset.map (fun r => (valswOf r).2))
          (dset.map (fun r => (featurizeSmiles r.smiles).isSome))
        else List.replicate
          ((dset.map (fun r => (featurizeSmiles r.smiles).isSome)).count true)
          (List.replicate ncols 1)).length
      = dset.countP (fun r => (featurizeSmiles r.smiles).isSome) := by
    cases contains_responses
    · simpa using hvalid
    · simpa using hv2
  simp only [dyn_featurize_data]
  rw [if_pos (And.intro (hfeat.trans hids.symm)
    (And.intro (hids.trans hvals.symm) (hvals.trans hw.symm)))]
  exact ⟨_, _, _, _, _, rfl, hfeat, hids.trans hfeat.symm, hvals.trans hfeat.symm,
    hw.trans hfeat.symm⟩

/- ************************************************************************************
`ComputedDescriptorFeaturization.featurize_data` (featurization.py lines 1283-1433),
core merge logic (lines 1352-1400).  `use_precomputed` records whether a usable
precomputed descriptor table was loaded (lines 1313-1335, external datastore I/O);
`descOf` is the `compute_descriptors` oracle, giving the descriptor row for a SMILES
string or `none` when featurization marks it invalid.  The final `sample(n=...)`
shuffle (line 1408) permutes rows and is outside the construction modelled here;
when both SMILES partitions are empty (only possible for an empty dataset) the
Python variable `merged_dset_df` is never assigned and line 1408 raises NameError,
embedded as `none`.
************************************************************************************ -/

structure InRow where
  cid : String
  smiles : String
  response : Int
deriving DecidableEq, Repr

structure PrecompRow where
  pcid : String
  psmiles : String
  pdescrs : List Int
deriving DecidableEq, Repr

structure OutRow where
  cid : String
  smiles : String
  response : Int
  descrs : List Int
deriving DecidableEq, Repr

/-- `calc_smiles` (line 1357/1360): as a set, the dataset SMILES strings missing from
the precomputed table, or all of them when no usable table was loaded. -/
def calc_smiles_set (use_precomputed : Bool) (dset_smiles : List String)
    (precomp : List PrecompRow) : Finset String :=
  if use_precomputed then
    dset_smiles.toFinset \ (precomp.map (fun p => p.psmiles)).toFinset
  else
    dset_smiles.toFinset

/-- `precomp_smiles` (line 1358/1361): `list(set(dset_smiles) - set(calc_smiles))`. -/
def precomp_smiles_set (use_precomputed : Bool) (dset_smiles : List String)
    (precomp : List PrecompRow) : Finset String :=
  dset_smiles.toFinset \ calc_smiles_set use_precomputed dset_smiles precomp

/-- `calc_merged_df` (lines 1364-1371): input rows routed to fresh computation,
restricted to the ones whose SMILES featurizes, with descriptor columns attached. -/
def calc_merged (descOf : String → Option (List Int)) (input_df : List InRow)
    (calcSet : Finset String) : List OutRow :=
  (input_df.filter (fun r => decide (r.smiles ∈ calcSet))).filterMap
    (fun r => (descOf r.smiles).map (fun d => OutRow.mk r.cid r.smiles r.response d))

/-- `drop_duplicates(subset=[smiles_col])`: keep the first row for each SMILES value. -/
def dropDupBySmiles (seen : List String) : List OutRow → List OutRow
  | [] => []
  | r :: rs =>
    if r.smiles ∈ seen then dropDupBySmiles seen rs
    else r :: dropDupBySmiles (r.smiles :: seen) rs

/-- `precomp_merged_df` (lines 1383-1393): pandas inner merge of the input rows routed
to the precomputed table with that table on the SMILES column, then de-duplicated by
SMILES keeping the first match. -/
def precomp_merged (input_df : List InRow) (precompSet : Finset String)
    (precomp : List PrecompRow) : List OutRow :=
  dropDupBySmiles []
    ((input_df.filter (fun r => decide (r.smiles ∈ precompSet))).flatMap
      (fun r => (precomp.filter (fun p => decide (p.psmiles = r.smiles))).map
        (fun p => OutRow.mk r.cid r.smiles r.response p.pdescrs)))

/-- `merged_dset_df` as of line 1400, before the shuffle: freshly computed part
followed by the merged precomputed part; `none` embeds the NameError raised when
both partitions are empty. -/
def computed_featurize_merged (descOf : String → Option (List Int))
    (use_precomputed : Bool) (input_df : List InRow) (precomp : List PrecompRow) :
    Option (List OutRow) :=
  let dset_smiles := input_df.map (fun r => r.smiles)
  let calcSet := calc_smiles_set use_precomputed dset_smiles precomp
  let precompSet := precomp_smiles_set use_precomputed dset_smiles precomp
  if calcSet = ∅ ∧ precompSet = ∅ then
    none
  else
    some (calc_merged descOf input_df calcSet
      ++ precomp_merged input_df precompSet precomp)

theorem dropDupBySmiles_subset (l : List OutRow) :
    ∀ (seen : List String), ∀ r ∈ dropDupBySmiles seen l, r ∈ l := by
  induction l with
  | nil => intro seen r h; simp [dropDupBySmiles] at h
  | cons a as ih =>
      intro seen r h
      simp only [dropDupBySmiles] at h
      by_cases ha : a.smiles ∈ seen
      · rw [if_pos ha] at h
        exact List.mem_cons_of_mem a (ih seen r h)
      · rw [if_neg ha] at h
        rcases List.mem_cons.mp h with h1 | h2
        · exact h1 ▸ List.mem_cons_self a as
        · exact List.mem_cons_of_mem a (ih _ r h2)

theorem dropDupBySmiles_countP (l : List OutRow) :
    ∀ (seen : List String) (v : String),
      (dropDupBySmiles seen l).countP (fun r => decide (r.smiles = v))
        ≤ if v ∈ seen then 0 else 1 := by
  induction l with
  | nil =>
      intro seen v
      simp only [dropDupBySmiles, List.countP_nil]
      split <;> omega
  | cons a as ih =>
      intro seen v
      simp only [dropDupBySmiles]
      by_cases ha : a.smiles ∈ seen
      · rw [if_pos ha]
        exact ih seen v
      · rw [if_neg ha, List.countP_cons]
        have h2 := ih (a.smiles :: seen) v
        by_cases hav : a.smiles = v
        · rw [if_pos (List.mem_cons.mpr (Or.inl hav.symm))] at h2
          rw [if_neg (fun hv => ha (hav.symm ▸ hv)), if_pos (decide_eq_true hav)]
          omega
        · have hmem : (v ∈ a.smiles :: seen) ↔ (v ∈ seen) := by
            constructor
            · intro h
              rcases List.mem_cons.mp h with h1 | h1
              · exact absurd h1.symm hav
              · exact h1
            · exact List.mem_cons_of_mem _
          rw [if_congr hmem rfl rfl] at h2
          rw [if_neg (by simpa using hav)]
          omega

theorem calc_merged_mem (descOf : String → Option (List Int)) (input_df : List InRow)
    (calcSet : Finset String) :
    ∀ r ∈ calc_merged descOf input_df calcSet,
      r.smiles ∈ calcSet ∧ descOf r.smiles = some r.descrs
      ∧ ∃ i ∈ input_df, r.cid = i.cid ∧ r.smiles = i.smiles ∧ r.response = i.response := by
  intro r hr
  rw [calc_merged, List.mem_filterMap] at hr
  obtain ⟨i, hi, hmap⟩ := hr
  rw [List.mem_filter] at hi
  obtain ⟨hi_mem, hi_set⟩ := hi
  obtain ⟨d, hd, hr_eq⟩ := Option.map_eq_some'.mp hmap
  subst hr_eq
  exact ⟨by simpa using hi_set, hd, i, hi_mem, rfl, rfl, rfl⟩

theorem precomp_merged_mem (input_df : List InRow) (precompSet : Finset String)
    (precomp : List PrecompRow) :
    ∀ r ∈ precomp_merged input_df precompSet precomp,
      r.smiles ∈ precompSet
      ∧ (∃ p ∈ precomp, p.psmiles = r.smiles ∧ r.descrs = p.pdescrs)
      ∧ ∃ i ∈ input_df, r.cid = i.cid ∧ r.smiles = i.smiles ∧ r.response = i.response := by
  intro r hr
  have hr2 := dropDupBySmiles_subset _ [] r hr
  rw [List.mem_flatMap] at hr2
  obtain ⟨i, hi, hr3⟩ := hr2
  rw [List.mem_filter] at hi
  obtain ⟨hi_mem, hi_set⟩ := hi
  rw [List.mem_map] at hr3
  obtain ⟨p, hp, hr_eq⟩ := hr3
  rw [List.mem_filter] at hp
  obtain ⟨hp_mem, hp_sm⟩ := hp
  subst hr_eq
  refine ⟨by simpa using hi_set, ⟨p, hp_mem, by simpa using hp_sm, rfl⟩,
    i, hi_mem, rfl, rfl, rfl⟩

/-- C1: in `ComputedDescriptorFeaturization.featurize_data` the dataset's SMILES
strings are split into two disjoint sets whose union is the whole SMILES set — the
ones absent from the loaded precomputed table (freshly computed) and the ones
present in it — with everything routed to fresh computation when no usable table
was loaded; the merged dataset is the concatenation of the freshly-computed part
(descriptor values from `compute_descriptors`) and the precomputed part (rows merged
from the precomputed table, at most one row per SMILES string). -/
theorem computed_featurize_data_partition (descOf : String → Option (List Int))
    (use_precomputed : Bool) (input_df : List InRow) (precomp : List PrecompRow) :
    Disjoint (calc_smiles_set use_precomputed (input_df.map (fun q => q.smiles)) precomp)
      (precomp_smiles_set use_precomputed (input_df.map (fun q => q.smiles)) precomp)
    ∧ calc_smiles_set use_precomputed (input_df.map (fun q => q.smiles)) precomp
        ∪ precomp_smiles_set use_precomputed (input_df.map (fun q => q.smiles)) precomp
        = (input_df.map (fun q => q.smiles)).toFinset
    ∧ (use_precomputed = true →
        calc_smiles_set use_precomputed (input_df.map (fun q => q.smiles)) precomp
          = (input_df.map (fun q => q.smiles)).toFinset
              \ (precomp.map (fun p => p.psmiles)).toFinset
        ∧ precomp_smiles_set use_precomputed (input_df.map (fun q => q.smiles)) precomp
          = (input_df.map (fun q => q.smiles)).toFinset
              ∩ (precomp.map (fun p => p.psmiles)).toFinset)
    ∧ (use_precomputed = false →
        calc_smiles_set use_precomputed (input_df.map (fun q => q.smiles)) precomp
          = (input_df.map (fun q => q.smiles)).toFinset
        ∧ precomp_smiles_set use_precomputed (input_df.map (fun q => q.smiles)) precomp
          = ∅)
    ∧ (∀ out,
        computed_featurize_merged descOf use_precomputed input_df precomp = some out →
        ∃ cpart ppart, out = cpart ++ ppart
          ∧ (∀ r ∈ cpart,
              r.smiles ∈ calc_smiles_set use_precomputed
                (input_df.map (fun q => q.smiles)) precomp
              ∧ descOf r.smiles = some r.descrs
              ∧ ∃ i ∈ input_df, r.cid = i.cid ∧ r.smiles = i.smiles
                  ∧ r.response = i.response)
          ∧ (∀ r ∈ ppart,
              r.smiles ∈ precomp_smiles_set use_precomputed
                (input_df.map (fun q => q.smiles)) precomp
              ∧ (∃ p ∈ precomp, p.psmiles = r.smiles ∧ r.descrs = p.pdescrs)
              ∧ ∃ i ∈ input_df, r.cid = i.cid ∧ r.smiles = i.smiles
                  ∧ r.response = i.response)
          ∧ ∀ v : String, ppart.countP (fun r => decide (r.smiles = v)) ≤ 1) := by
  have hsub : calc_smiles_set use_precomputed (input_df.map (fun q => q.smiles)) precomp
      ⊆ (input_df.map (fun q => q.smiles)).toFinset := by
    unfold calc_smiles_set
    cases use_precomputed
    · simp
    · simp only [if_pos rfl]
      exact Finset.sdiff_subset
  refine ⟨?_, ?_, ?_, ?_, ?_⟩
  · exact disjoint_sdiff_self_right
  · exact Finset.union_sdiff_of_subset hsub
  · intro hup
    subst hup
    refine ⟨by rw [calc_smiles_set, if_pos rfl], ?_⟩
    rw [precomp_smiles_set, calc_smiles_set, if_pos rfl, Finset.sdiff_sdiff_self_left]
  · intro hup
    subst hup
    refine ⟨by rw [calc_smiles_set, if_neg (by simp)], ?_⟩
    rw [precomp_smiles_set, calc_smiles_set, if_neg (by simp), Finset.sdiff_self]
  · intro out hout
    rw [computed_featurize_merged] at hout
    rcases Decidable.em
        (calc_smiles_set use_precomputed (input_df.map (fun q => q.smiles)) precomp = ∅
          ∧ precomp_smiles_set use_precomputed (input_df.map (fun q => q.smiles)) precomp
            = ∅) with hc | hc
    · rw [if_pos hc] at hout
      exact absurd hout (by simp)
    · rw [if_neg hc] at hout
      obtain rfl : calc_merged descOf input_df
            (calc_smiles_set use_precomputed (input_df.map (fun q => q.smiles)) precomp)
          ++ precomp_merged input_df
            (precomp_smiles_set use_precomputed (input_df.map (fun q => q.smiles)) precomp)
            precomp = out := Option.some.inj hout
      refine ⟨_, _, rfl, calc_merged_mem descOf input_df _, precomp_merged_mem input_df _ _,
        ?_⟩
      intro v
      have := dropDupBySmiles_countP
        ((input_df.filter (fun r => decide (r.smiles ∈ precomp_smiles_set use_precomputed
            (input_df.map (fun q => q.smiles)) precomp))).flatMap
          (fun r => (precomp.filter (fun p => decide (p.psmiles = r.smiles))).map
            (fun p => OutRow.mk r.cid r.smiles r.response p.pdescrs))) [] v
      rw [if_neg (List.not_mem_nil v)] at this
      exact this

/-- Witness for C1: a two-compound dataset in which "s1" is absent from the loaded
precomputed table (so its descriptors are computed) and "s2" is present (so its row
is merged from the table). -/
theorem computed_featurize_data_partition_witness :
    ∃ cpart ppart,
      ([OutRow.mk "c1" "s1" 7 [5, 6], OutRow.mk "c2" "s2" 8 [1, 2]] : List OutRow)
        = cpart ++ ppart
      ∧ (∀ r ∈ cpart,
          r.smiles ∈ calc_smiles_set true
            (([⟨"c1", "s1", 7⟩, ⟨"c2", "s2", 8⟩] : List InRow).map (fun q => q.smiles))
            [⟨"p1", "s2", [1, 2]⟩]
          ∧ (fun s => if s = "s1" then some [5, 6] else none) r.smiles = some r.descrs
          ∧ ∃ i ∈ ([⟨"c1", "s1", 7⟩, ⟨"c2", "s2", 8⟩] : List InRow),
              r.cid = i.cid ∧ r.smiles = i.smiles ∧ r.response = i.response)
      ∧ (∀ r ∈ ppart,
          r.smiles ∈ precomp_smiles_set true
            (([⟨"c1", "s1", 7⟩, ⟨"c2", "s2", 8⟩] : List InRow).map (fun q => q.smiles))
            [⟨"p1", "s2", [1, 2]⟩]
          ∧ (∃ p ∈ ([⟨"p1", "s2", [1, 2]⟩] : List PrecompRow),
              p.psmiles = r.smiles ∧ r.descrs = p.pdescrs)
          ∧ ∃ i ∈ ([⟨"c1", "s1", 7⟩, ⟨"c2", "s2", 8⟩] : List InRow),
              r.cid = i.cid ∧ r.smiles = i.smiles ∧ r.response = i.response)
      ∧ ∀ v : String, ppart.countP (fun r => decide (r.smiles = v)) ≤ 1 :=
  (computed_featurize_data_partition (fun s => if s = "s1" then some [5, 6] else none)
    true [⟨"c1", "s1", 7⟩, ⟨"c2", "s2", 8⟩] [⟨"p1", "s2", [1, 2]⟩]).2.2.2.2
    [OutRow.mk "c1" "s1" 7 [5, 6], OutRow.mk "c2" "s2" 8 [1, 2]] (by decide)

/- ************************************************************************************
`get_training_perf_table` (compare_models.py lines 71-205).
The model tracker query result is a list of model metadata dicts, each carrying a
`ModelMetrics.TrainingRun` list of metrics entries.  Scores are floats in Python and
are modelled as `Int` (they are only stored, compared and sorted, never computed
with).  Python's `subset_metrics` dict is filled by successive assignment over the
entries with label 'best', so for each subset the LAST such entry wins; a model
with at least 3 metrics entries but no 'best' entry for some subset makes line 181
raise KeyError, which aborts the whole call — embedded as `none`.  An empty model
list returns early (line 87), also embedded as `none`.  `sort_values(ascending=False)`
is modelled with `List.insertionSort` on the descending relation.
************************************************************************************ -/

structure MetricsEntry where
  label : String
  subset : String
  r2_score : Int
  roc_auc_score : Int
deriving DecidableEq, Repr

structure PerfModel where
  model_uuid : String
  metrics : List MetricsEntry
deriving DecidableEq, Repr

structure PerfRow where
  model_uuid : String
  train_score : Int
  valid_score : Int
  test_score : Int
deriving DecidableEq, Repr

/-- The entry of `subset_metrics[sub]` after the loop at lines 130-133: the last
metrics entry with label 'best' and the given subset, if any. -/
def bestEntryFor (m : PerfModel) (sub : String) : Option MetricsEntry :=
  (m.metrics.filter (fun e => decide (e.label = "best") && decide (e.subset = sub))).getLast?

/-- `metric_type` selection (lines 111-114) applied to one metrics entry. -/
def scoreOf (pred_type : String) (e : MetricsEntry) : Int :=
  if pred_type = "regression" then e.r2_score else e.roc_auc_score

/-- One output row of the performance table for a model that was not skipped;
`none` when `subset_metrics` lacks a 'best' entry for some subset (KeyError). -/
def modelRow (pred_type : String) (m : PerfModel) : Option PerfRow :=
  match bestEntryFor m "train", bestEntryFor m "valid", bestEntryFor m "test" with
  | some etr, some eva, some ete =>
      some ⟨m.model_uuid, scoreOf pred_type etr, scoreOf pred_type eva,
        scoreOf pred_type ete⟩
  | _, _, _ => none

/-- Sequential row collection: the loop aborts on the first KeyError. -/
def collectRows {α β : Type} (f : α → Option β) : List α → Option (List β)
  | [] => some []
  | a :: as =>
    match f a, collectRows f as with
    | some b, some bs => some (b :: bs)
    | _, _ => none

/-- Embedding of `get_training_perf_table`: skip models with fewer than 3 metrics
entries, build one row per remaining model from its 'best' metrics, sort descending
by the validation score. -/
def get_training_perf_table (pred_type : String) (models : List PerfModel) :
    Option (List PerfRow) :=
  if models = [] then none
  else
    (collectRows (modelRow pred_type)
        (models.filter (fun m => decide (3 ≤ m.metrics.length)))).map
      (fun rows => List.insertionSort (fun a b => b.valid_score ≤ a.valid_score) rows)

theorem collectRows_length {α β : Type} (f : α → Option β) (l : List α) :
    ∀ bs, collectRows f l = some bs → bs.length = l.length := by
  induction l with
  | nil =>
      intro bs h
      simp only [collectRows] at h
      simp [← Option.some.inj h]
  | cons a as ih =>
      intro bs h
      simp only [collectRows] at h
      cases hfa : f a with
      | none => rw [hfa] at h; exact absurd h (by simp)
      | some b =>
          rw [hfa] at h
          cases hrec : collectRows f as with
          | none => rw [hrec] at h; exact absurd h (by simp)
          | some bs0 =>
              rw [hrec] at h
              rw [← Option.some.inj h]
              simp [ih bs0 hrec]

theorem collectRows_mem {α β : Type} (f : α → Option β) (l : List α) :
    ∀ bs, collectRows f l = some bs → ∀ b ∈ bs, ∃ a ∈ l, f a = some b := by
  induction l with
  | nil =>
      intro bs h b hb
      simp only [collectRows] at h
      rw [← Option.some.inj h] at hb
      exact absurd hb (List.not_mem_nil b)
  | cons a as ih =>
      intro bs h b hb
      simp only [collectRows] at h
      cases hfa : f a with
      | none => rw [hfa] at h; exact absurd h (by simp)
      | some b0 =>
          rw [hfa] at h
          cases hrec : collectRows f as with
          | none => rw [hrec] at h; exact absurd h (by simp)
          | some bs0 =>
              rw [hrec] at h
              rw [← Option.some.inj h] at hb
              rcases List.mem_cons.mp hb with h1 | h1
              · exact ⟨a, List.mem_cons_self a as, h1 ▸ hfa⟩
              · obtain ⟨a0, ha0, hfa0⟩ := ih bs0 hrec b h1
                exact ⟨a0, List.mem_cons_of_mem a ha0, hfa0⟩

theorem bestEntryFor_spec (m : PerfModel) (sub : String) :
    ∀ e, bestEntryFor m sub = some e →
      e ∈ m.metrics ∧ e.label = "best" ∧ e.subset = sub := by
  intro e h
  rw [bestEntryFor] at h
  obtain ⟨ys, hys⟩ := List.getLast?_eq_some_iff.mp h
  have hmem : e ∈ m.metrics.filter
      (fun e => decide (e.label = "best") && decide (e.subset = sub)) := by
    rw [hys]
    exact List.mem_append_right ys (List.mem_singleton.mpr rfl)
  rw [List.mem_filter] at hmem
  refine ⟨hmem.1, ?_, ?_⟩
  · have := Bool.and_elim_left hmem.2
    simpa using this
  · have := Bool.and_elim_right hmem.2
    simpa using this

theorem modelRow_spec (pred_type : String) (m : PerfModel) :
    ∀ r, modelRow pred_type m = some r →
      r.model_uuid = m.model_uuid
      ∧ (∃ e ∈ m.metrics, e.label = "best" ∧ e.subset = "train"
          ∧ r.train_score = scoreOf pred_type e)
      ∧ (∃ e ∈ m.metrics, e.label = "best" ∧ e.subset = "valid"
          ∧ r.valid_score = scoreOf pred_type e)
      ∧ (∃ e ∈ m.metrics, e.label = "best" ∧ e.subset = "test"
          ∧ r.test_score = scoreOf pred_type e) := by
  intro r h
  rw [modelRow] at h
  cases htr : bestEntryFor m "train" with
  | none => rw [htr] at h; exact absurd h (by simp)
  | some etr =>
      cases hva : bestEntryFor m "valid" with
      | none => rw [htr, hva] at h; exact absurd h (by simp)
      | some eva =>
          cases hte : bestEntryFor m "test" with
          | none => rw [htr, hva, hte] at h; exact absurd h (by simp)
          | some ete =>
              rw [htr, hva, hte] at h
              obtain ⟨h1, h2, h3⟩ := bestEntryFor_spec m "train" etr htr
              obtain ⟨h4, h5, h6⟩ := bestEntryFor_spec m "valid" eva hva
              obtain ⟨h7, h8, h9⟩ := bestEntryFor_spec m "test" ete hte
              rw [← Option.some.inj h]
              exact ⟨rfl, ⟨etr, h1, h2, h3, rfl⟩, ⟨eva, h4, h5, h6, rfl⟩,
                ⟨ete, h7, h8, h9, rfl⟩⟩

instance perfRowDescTotal :
    IsTotal PerfRow (fun a b => b.valid_score ≤ a.valid_score) :=
  ⟨fun a b => le_total b.valid_score a.valid_score⟩

instance perfRowDescTrans :
    IsTrans PerfRow (fun a b => b.valid_score ≤ a.valid_score) :=
  ⟨fun _ _ _ hab hbc => le_trans hbc hab⟩

/-- C4: whenever `get_training_perf_table` returns a table, it has one row per model
whose TrainingRun metrics list has at least three entries, every row's train/valid/
test scores come from metrics entries labelled 'best' for the matching subset
(r2_score under 'regression', roc_auc_score otherwise), and the rows are sorted in
descending order of the validation score. -/
theorem get_training_perf_table_spec (pred_type : String) (models : List PerfModel)
    (rows : List PerfRow)
    (h : get_training_perf_table pred_type models = some rows) :
    rows.length = (models.filter (fun m => decide (3 ≤ m.metrics.length))).length
    ∧ (∀ r ∈ rows, ∃ m ∈ models, 3 ≤ m.metrics.length
        ∧ r.model_uuid = m.model_uuid
        ∧ (∃ e ∈ m.metrics, e.label = "best" ∧ e.subset = "train"
            ∧ r.train_score = scoreOf pred_type e)
        ∧ (∃ e ∈ m.metrics, e.label = "best" ∧ e.subset = "valid"
            ∧ r.valid_score = scoreOf pred_type e)
        ∧ (∃ e ∈ m.metrics, e.label = "best" ∧ e.subset = "test"
            ∧ r.test_score = scoreOf pred_type e))
    ∧ rows.Sorted (fun a b => b.valid_score ≤ a.valid_score) := by
  rw [get_training_perf_table] at h
  by_cases hemp : models = []
  · rw [if_pos hemp] at h
    exact absurd h (by simp)
  · rw [if_neg hemp] at h
    cases hcoll : collectRows (modelRow pred_type)
        (models.filter (fun m => decide (3 ≤ m.metrics.length))) with
    | none => rw [hcoll] at h; exact absurd h (by simp)
    | some rows0 =>
        rw [hcoll] at h
        rw [Option.map_some'] at h
        obtain rfl : List.insertionSort
            (fun a b => b.valid_score ≤ a.valid_score) rows0 = rows :=
          Option.some.inj h
        have hperm := List.perm_insertionSort
          (fun a b => b.valid_score ≤ a.valid_score) rows0
        refine ⟨?_, ?_, ?_⟩
        · rw [hperm.length_eq]
          exact collectRows_length _ _ rows0 hcoll
        · intro r hr
          have hr0 : r ∈ rows0 := hperm.mem_iff.mp hr
          obtain ⟨m, hm, hrow⟩ := collectRows_mem _ _ rows0 hcoll r hr0
          rw [List.mem_filter] at hm
          obtain ⟨huuid, htr, hva, hte⟩ := modelRow_spec pred_type m r hrow
          exact ⟨m, hm.1, by simpa using hm.2, huuid, htr, hva, hte⟩
        · exact List.sorted_insertionSort _ rows0

/-- Witness for C4: two complete models, the second with the better validation
score, so its row sorts first. -/
theorem get_training_perf_table_spec_witness :
    ([⟨"u2", 4, 5, 6⟩, ⟨"u1", 1, 2, 3⟩] : List PerfRow).length
      = (([⟨"u1", [⟨"best", "train", 1, 0⟩, ⟨"best", "valid", 2, 0⟩,
            ⟨"best", "test", 3, 0⟩]⟩,
          ⟨"u2", [⟨"best", "train", 4, 0⟩, ⟨"best", "valid", 5, 0⟩,
            ⟨"best", "test", 6, 0⟩]⟩] : List PerfModel).filter
          (fun m => decide (3 ≤ m.metrics.length))).length
    ∧ ([⟨"u2", 4, 5, 6⟩, ⟨"u1", 1, 2, 3⟩] : List PerfRow).Sorted
        (fun a b => b.valid_score ≤ a.valid_score) := by
  have h := get_training_perf_table_spec "regression"
    [⟨"u1", [⟨"best", "train", 1, 0⟩, ⟨"best", "valid", 2, 0⟩,
        ⟨"best", "test", 3, 0⟩]⟩,
      ⟨"u2", [⟨"best", "train", 4, 0⟩, ⟨"best", "valid", 5, 0⟩,
        ⟨"best", "test", 6, 0⟩]⟩]
    [⟨"u2", 4, 5, 6⟩, ⟨"u1", 1, 2, 3⟩] (by decide)
  exact ⟨h.1, h.2.2⟩

/- ************************************************************************************
`get_collection_datasets` (compare_models.py lines 33-54) and
`extract_collection_perf_metrics` (lines 57-68).
A model's tracker metadata is reduced to its (dataset_key, bucket) pair; the
collection is the list of those pairs.  `get_collection_datasets` returns
`sorted(set(pairs))` (Python sorts string tuples lexicographically).  For each pair
the extract function performs one `to_csv` write, collected here as a list of
(filename, table) pairs; the per-dataset table `get_training_perf_table(...)` is an
oracle `perfTable`.  The filename stem is
`os.path.basename(dset_key).replace('.csv', '')` — `str.replace` removes EVERY
occurrence of '.csv', not just a trailing suffix.
************************************************************************************ -/

/-- Python `str.replace('.csv', '')`: left-to-right removal of every occurrence. -/
def pyReplaceCsvAll : List Char → List Char
  | '.' :: 'c' :: 's' :: 'v' :: rest => pyReplaceCsvAll rest
  | c :: rest => c :: pyReplaceCsvAll rest
  | [] => []

/-- `os.path.basename`: the part after the last '/'. -/
def osPathBasename (s : List Char) : List Char :=
  (s.reverse.takeWhile (fun c => decide (c ≠ '/'))).reverse

/-- The CSV filename actually produced at compare_models.py line 66:
`'%s/%s_%s_model_perf_metrics.csv' % (output_dir, os.path.basename(dset_key).replace('.csv', ''), collection_name)`. -/
def perf_metrics_filename (output_dir collection_name dataset_key : String) : String :=
  output_dir ++ "/" ++ String.mk (pyReplaceCsvAll (osPathBasename dataset_key.data))
    ++ "_" ++ collection_name ++ "_model_perf_metrics.csv"

/-- Modelled from the claim's wording, for comparison: the filename obtained by
stripping only a terminal '.csv' suffix from the basename of the dataset key. -/
def claimed_filename (output_dir collection_name dataset_key : String) : String :=
  let base := osPathBasename dataset_key.data
  let stem := if decide ((['.', 'c', 's', 'v'] : List Char) <:+ base)
    then base.take (base.length - 4) else base
  output_dir ++ "/" ++ String.mk stem ++ "_" ++ collection_name
    ++ "_model_perf_metrics.csv"

/-- Lexicographic comparison of character lists, Python string order. -/
def charListLe : List Char → List Char → Bool
  | [], _ => true
  | _ :: _, [] => false
  | a :: as, b :: bs =>
    if a < b then true
    else if b < a then false
    else charListLe as bs

/-- Python tuple comparison on (dataset_key, bucket) pairs of strings. -/
def tupleLe (p q : String × String) : Bool :=
  if p.1.data = q.1.data then charListLe p.2.data q.2.data
  else charListLe p.1.data q.1.data

/-- Embedding of `get_collection_datasets`: `sorted(set of (dataset_key, bucket)))`. -/
def get_collection_datasets (models : List (String × String)) :
    List (String × String) :=
  List.insertionSort (fun p q => tupleLe p q = true) models.dedup

/-- Embedding of `extract_collection_perf_metrics`: one CSV write per element of
`get_collection_datasets`, as a list of (filename, table) pairs in write order. -/
def extract_collection_perf_metrics (models : List (String × String))
    (output_dir collection_name : String) (perfTable : String × String → PTable) :
    List (String × PTable) :=
  (get_collection_datasets models).map
    (fun p => (perf_metrics_filename output_dir collection_name p.1, perfTable p))

/-- Counterexample for C6: for the dataset key "dir/data.csvx.csv" the single write
goes to "out/datax_coll_model_perf_metrics.csv" — `replace('.csv', '')` removed the
interior '.csv' as well — while the name the claim describes (strip only the '.csv'
suffix of the basename) is "out/data.csvx_coll_model_perf_metrics.csv". -/
theorem extract_collection_perf_metrics_name_counterexample :
    extract_collection_perf_metrics [("dir/data.csvx.csv", "bkt")] "out" "coll"
        (fun _ => ⟨[], []⟩)
      = [("out/datax_coll_model_perf_metrics.csv", ⟨[], []⟩)]
    ∧ claimed_filename "out" "coll" "dir/data.csvx.csv"
        = "out/data.csvx_coll_model_perf_metrics.csv"
    ∧ perf_metrics_filename "out" "coll" "dir/data.csvx.csv"
        ≠ claimed_filename "out" "coll" "dir/data.csvx.csv" := by
  refine ⟨by decide, by decide, by decide⟩

/-- C6 (amended): `extract_collection_perf_metrics` performs exactly one CSV write
for each distinct (dataset_key, bucket) pair among the models of the collection,
writing the per-dataset performance table to the file named by removing every
occurrence of '.csv' from the basename of the dataset key and appending
'_<collection_name>_model_perf_metrics.csv' under the output directory. -/
theorem extract_collection_perf_metrics_writes (models : List (String × String))
    (output_dir collection_name : String) (perfTable : String × String → PTable) :
    ∃ ds : List (String × String),
      ds.Nodup
      ∧ (∀ p, p ∈ ds ↔ p ∈ models)
      ∧ extract_collection_perf_metrics models output_dir collection_name perfTable
          = ds.map (fun p =>
              (perf_metrics_filename output_dir collection_name p.1, perfTable p)) := by
  refine ⟨get_collection_datasets models, ?_, ?_, rfl⟩
  · exact (List.perm_insertionSort _ _).nodup_iff.mpr (List.nodup_dedup models)
  · intro p
    rw [get_collection_datasets, (List.perm_insertionSort _ _).mem_iff, List.mem_dedup]

end AMPL
